import Mathlib

set_option maxRecDepth 100000

/-!
Verification of the retrieval-and-context-assembly pipeline of the
Aadhar_Agent repository: a shallow embedding of `vector_db.py` (text
chunking and document ingestion) and `openai_chat.py` (conversation
memory, summarization and answer composition), together with proofs of
the specified properties.
-/

namespace AadharAgent

/-! ## Chunker: `VectorDatabase.chunk_text` in `src/vector_db.py`

The Python code normalizes whitespace, splits the text into words, and
takes windows of `chunk_size` words advancing by `chunk_size - overlap`
words per step, keeping only windows whose stripped text is nonempty and
longer than 50 characters. -/

/-- Helper for `normalizeWords`: scan the character list, accumulating the
current word in reverse; whitespace ends the current word, and empty pieces
are dropped, exactly as in Python `str.split()` with no separator argument. -/
def wordsAux : List Char → List Char → List String
  | [], acc => if acc.isEmpty then [] else [String.mk acc.reverse]
  | c :: cs, acc =>
    if c.isWhitespace then
      if acc.isEmpty then wordsAux cs [] else String.mk acc.reverse :: wordsAux cs []
    else wordsAux cs (c :: acc)

/-- The word list `chunk_text` operates on.  The Python code replaces
newlines by spaces and collapses whitespace runs before splitting; the net
effect is `text.split()`: the maximal whitespace-free substrings, in order.
Whitespace is modelled by `Char.isWhitespace`. -/
def normalizeWords (text : String) : List String :=
  wordsAux text.data []

/-- Python `sep.join(parts)`. -/
def joinWith (sep : String) : List String → String
  | [] => ""
  | [w] => w
  | w :: ws => w ++ sep ++ joinWith sep ws

/-- Python `str.strip()`: remove leading and trailing whitespace. -/
def pytrim (s : String) : String :=
  String.mk (((s.data.dropWhile Char.isWhitespace).reverse.dropWhile Char.isWhitespace).reverse)

/-- The stripped text of the word window starting at word index `i`:
`" ".join(words[i:i + chunk_size]).strip()` in the source. -/
def windowChunk (ws : List String) (i S : Nat) : String :=
  pytrim (joinWith " " ((ws.drop i).take S))

/-- The filter applied to each window in `chunk_text`:
`if chunk.strip() and len(chunk.strip()) > 50` in the source
(nonempty stripped text of more than 50 characters). -/
def keepChunk (c : String) : Bool :=
  c != "" && decide (c.length > 50)

/-- The start indices `0, step, 2*step, ...` strictly below `n`, i.e.
Python `range(0, n, step)` for a positive step. -/
def chunkStarts (n step : Nat) : List Nat :=
  (List.range ((n + step - 1) / step)).map (fun k => k * step)

/-- Python `range(0, n, step)` for an arbitrary integer step, as used by the
chunking loop: a zero step raises `ValueError`, a negative step yields the
empty range (no iterations, no error), and a positive step yields the
multiples of `step` below `n`. -/
def pyRange0 (n : Nat) (step : Int) : Except String (List Nat) :=
  if step = 0 then .error "ValueError: range() arg 3 must not be zero"
  else if step < 0 then .ok []
  else .ok (chunkStarts n step.toNat)

/-- `VectorDatabase.chunk_text` from `src/vector_db.py`: normalize
whitespace and split into words, then for each `i` in
`range(0, len(words), chunk_size - overlap)` form the window
`" ".join(words[i:i + chunk_size])` and keep its stripped text when it is
nonempty and longer than 50 characters.  Python defaults are
`chunk_size = 800`, `overlap = 150`. -/
def chunk_text (text : String) (chunk_size : Nat := 800) (overlap : Nat := 150) :
    Except String (List String) :=
  match pyRange0 (normalizeWords text).length ((chunk_size : Int) - (overlap : Int)) with
  | .error e => .error e
  | .ok starts =>
      .ok ((starts.map (fun i => windowChunk (normalizeWords text) i chunk_size)).filter
        keepChunk)

/-- Word position `p` of the word list `ws` is covered by the chunk list
`cs`: some chunk of `cs` is the window starting at an index `i` with
`i ≤ p < i + S`, so the word at `p` appears in that chunk. -/
def coveredPos (ws : List String) (S : Nat) (cs : List String) (p : Nat) : Prop :=
  ∃ i, i ≤ p ∧ p < i + S ∧ windowChunk ws i S ∈ cs

/-! ## Document index: `VectorDatabase.add_documents` in `src/vector_db.py` -/

/-- An ingestion input, the `{filename, content, source}` triple consumed by
`add_documents` (produced by the external PDF extraction collaborator). -/
structure Document where
  filename : String
  source : String
  content : String
deriving Repr, DecidableEq

/-- One stored entry of the document index: the chunk text together with the
metadata dict built in `add_documents`.  The embedding vector is produced by
the external embedding model and does not affect ids or entry counts, so it
is not modelled. -/
structure ChunkEntry where
  text : String
  filename : String
  source : String
  chunk_index : Nat
  total_chunks : Nat
deriving Repr, DecidableEq

/-- Modelled from the spec: the ChromaDB collection backing the document
index, which is not part of this repository.  The spec describes it as a
persistent store of entries keyed by a unique id supporting upsert, where
re-ingesting a file with the same chunking parameters overwrites prior
chunks with identical ids rather than duplicating.  We model it as an
association list from id to entry. -/
abbrev Collection : Type := List (String × ChunkEntry)

/-- The ids present in a collection, in storage order. -/
def keysOf (col : Collection) : List String :=
  col.map Prod.fst

/-- Modelled from the spec: adding one `(id, entry)` pair to the collection.
An existing id is overwritten in place; a fresh id is appended. -/
def upsertOne (col : Collection) (id : String) (entry : ChunkEntry) : Collection :=
  if id ∈ keysOf col then
    col.map (fun p => if p.1 = id then (id, entry) else p)
  else
    col ++ [(id, entry)]

/-- Modelled from the spec: adding a batch of entries in order. -/
def upsertBatch (col : Collection) (entries : List (String × ChunkEntry)) : Collection :=
  entries.foldl (fun c e => upsertOne c e.1 e.2) col

/-- The `(id, entry)` pairs that `add_documents` builds for one document:
the chunk at position `i` gets id `filename + "_chunk_" + str(i)` and
metadata `{filename, source, chunk_index := i, total_chunks}`. -/
def docEntries (doc : Document) (chunks : List String) : List (String × ChunkEntry) :=
  chunks.enum.map (fun p =>
    (doc.filename ++ "_chunk_" ++ toString p.1,
     { text := p.2, filename := doc.filename, source := doc.source,
       chunk_index := p.1, total_chunks := chunks.length }))

/-- The full entry batch `add_documents` accumulates over its document list
(`all_ids`, `all_texts`, `all_metadatas`), before the single
`collection.add` call.  Chunking each document may raise (zero step). -/
def allEntries (documents : List Document) (chunk_size overlap : Nat) :
    Except String (List (String × ChunkEntry)) := do
  let perDoc ← documents.mapM (fun doc => do
    let chunks ← chunk_text doc.content chunk_size overlap
    pure (docEntries doc chunks))
  pure perDoc.flatten

/-- `VectorDatabase.add_documents` from `src/vector_db.py`, over the
spec-modelled collection: chunk every document, build the deterministic ids
and metadata, and add the whole batch to the collection.  The source always
chunks with the default parameters `chunk_size = 800`, `overlap = 150`; they
are kept explicit here so that the idempotence claim can quantify over
identical chunking parameters. -/
def add_documents (col : Collection) (documents : List Document)
    (chunk_size : Nat := 800) (overlap : Nat := 150) : Except String Collection := do
  let entries ← allEntries documents chunk_size overlap
  pure (upsertBatch col entries)

/-! ## Conversation memory and answer composition: `src/openai_chat.py` -/

/-- A role-tagged chat message, the `{"role": ..., "content": ...}` dicts of
`openai_chat.py`. -/
structure Msg where
  role : String
  content : String
deriving Repr, DecidableEq

/-- The mutable state of `OpenAIChat`: the turn log
`conversation_history`, the rolling `conversation_summary`, and the
write-only `topic_context` dict. -/
structure ChatState where
  conversation_history : List Msg
  conversation_summary : String
  topic_context : List (String × String)
deriving Repr, DecidableEq

/-- The opaque completion capability: given the ordered message list, the
provider returns the response text or fails with a provider error.  The
fixed model name, token limit and temperature of each call site do not vary
and are not modelled. -/
abbrev Completion : Type := List Msg → Except String String

/-- The constant system instruction message of `generate_response`. -/
def system_message : String :=
  "You are a specialized Aadhaar assistant that ONLY answers questions based on the provided official Aadhaar documents.\n\nSTRICT RULES:\n1. ONLY use information from the provided Aadhaar documents\n2. If information is NOT in the provided documents, respond with: \"Information unavailable at the moment.\"\n3. Do NOT provide any external knowledge or general information\n4. Do NOT answer questions unrelated to Aadhaar processes\n5. Always cite the specific document source when providing information\n\nYou have access to:\n1. Official Aadhaar documents (provided as context)\n2. Conversation history (previous questions and answers in this chat)\n\nFor questions about the conversation itself (like \"when did we discuss X?\" or \"what did you say about Y?\"), refer to the conversation history.\n\nStay strictly within the bounds of the provided Aadhaar documents."

/-- A retrieval result as consumed by `_prepare_context`: only `content` and
`metadata[\x22filename\x22]` are read there, with `metadata.get` defaulting to
"Unknown" when the filename key is absent.  The distance and the remaining
metadata fields are never read on the answer path. -/
structure RetrievalResult where
  content : String
  filename : Option String
deriving Repr, DecidableEq

/-- The labeled context blocks built by `_prepare_context`: block `i`
(1-based) is `"Source {i} ({source}):\n{content}\n"`. -/
def contextParts (documents : List RetrievalResult) : List String :=
  documents.enum.map (fun p =>
    "Source " ++ toString (p.1 + 1) ++ " (" ++ p.2.filename.getD "Unknown" ++ "):\n"
      ++ p.2.content ++ "\n")

/-- `OpenAIChat._prepare_context`: the labeled blocks joined by newlines. -/
def prepare_context (documents : List RetrievalResult) : String :=
  joinWith "\n" (contextParts documents)

/-- Python slice `l[-n:]` for positive `n`: the last `n` elements, or the
whole list when it is shorter. -/
def pyLastSlice (l : List α) (n : Nat) : List α :=
  l.drop (l.length - n)

/-- The sliding context window: `self.conversation_history[-20:]` at the
history insertion point of `generate_response` (the source comment says 20
exchanges, but the slice keeps the last 20 messages). -/
def window (st : ChatState) : List Msg :=
  pyLastSlice st.conversation_history 20

/-- The final user message of `generate_response`: the retrieved context
followed by the current question and the closing instruction. -/
def user_message_content (context user_query : String) : String :=
  "RELEVANT DOCUMENT CONTEXT:\n" ++ context ++ "\n\nCURRENT QUESTION: " ++ user_query
    ++ "\n\nIMPORTANT: Only answer if the information is available in the document context above. If not available, respond with \"Information unavailable at the moment.\" Do not provide any external knowledge."

/-- The ordered message list `generate_response` sends to the completion
capability: system instructions, then the summary message when the summary
is nonempty, then the last 20 history messages, then the user message. -/
def assemble_messages (st : ChatState) (user_query : String)
    (context_documents : List RetrievalResult) : List Msg :=
  [⟨"system", system_message⟩]
    ++ (if st.conversation_summary ≠ "" then
          [⟨"system", "CONVERSATION SUMMARY: " ++ st.conversation_summary⟩]
        else [])
    ++ window st
    ++ [⟨"user", user_message_content (prepare_context context_documents) user_query⟩]

/-- The `role: content` transcript of the recent exchanges, joined by
newlines, as built in `_update_conversation_summary`. -/
def conversation_text (msgs : List Msg) : String :=
  joinWith "\n" (msgs.map (fun m => m.role ++ ": " ++ m.content))

/-- The dedicated summarization prompt of `_update_conversation_summary`,
around the transcript of the recent exchanges. -/
def summary_prompt (transcript : String) : String :=
  "Summarize the key topics and information discussed in this Aadhaar-related conversation. Focus on:\n1. Main topics discussed\n2. Key information provided\n3. User's specific needs or questions\n4. Important details that should be remembered\n\nConversation:\n" ++ transcript ++ "\n\nProvide a concise summary:"

/-- `OpenAIChat._update_conversation_summary`: when the history length is a
positive multiple of 20, synchronously ask the completion capability to
summarize the last 20 messages and overwrite the summary with the result;
on a provider error the warning is printed and the state is left unchanged;
outside the trigger nothing happens. -/
def update_conversation_summary (complete : Completion) (st : ChatState) : ChatState :=
  if st.conversation_history.length % 20 = 0 ∧ st.conversation_history.length > 0 then
    match complete [⟨"user",
        summary_prompt (conversation_text (pyLastSlice st.conversation_history 20))⟩] with
    | .ok out => { st with conversation_summary := out }
    | .error _ => st
  else st

/-- `OpenAIChat.generate_response`: assemble the message list and invoke the
completion capability once.  On success, append the user and assistant
turns to the history, run the periodic summary update, and return the
response; on a provider error, return the formatted error string and leave
the state untouched. -/
def generate_response (complete : Completion) (st : ChatState) (user_query : String)
    (context_documents : List RetrievalResult) : String × ChatState :=
  match complete (assemble_messages st user_query context_documents) with
  | .ok assistant_response =>
      (assistant_response,
       update_conversation_summary complete
         { st with conversation_history := st.conversation_history
             ++ [⟨"user", user_query⟩, ⟨"assistant", assistant_response⟩] })
  | .error e => ("Error generating response: " ++ e, st)

/-- `OpenAIChat.clear_history`: reset the turn log, the summary and the
topic context wholesale. -/
def clear_history (_st : ChatState) : ChatState :=
  { conversation_history := [], conversation_summary := "", topic_context := [] }

/-- The alternation invariant of the turn log: an even-length list of
user/assistant pairs in that order. -/
inductive Alternating : List Msg → Prop
  | nil : Alternating []
  | cons (q a : String) (t : List Msg) :
      Alternating t → Alternating (⟨"user", q⟩ :: ⟨"assistant", a⟩ :: t)

/-! ## Concrete sample inputs used to exercise the theorems -/

/-- A thirty-character word, long enough that even a two-word window passes
the 50-character chunk filter. -/
def w30 : String := "aaaaaaaaaaaaaaaaaaaaaaaaaaaaaa"

/-- A ten-word text of thirty-character words. -/
def tenWordText : String := joinWith " " (List.replicate 10 w30)

/-- A four-word text of thirty-character words. -/
def fourWordText : String := joinWith " " (List.replicate 4 w30)

/-- A fresh chat state. -/
def emptyChatState : ChatState := ⟨[], "", []⟩

/-- An alternating sample turn log of `n` exchanges (`2 * n` messages). -/
def sampleTurns (n : Nat) : List Msg :=
  (List.range n).flatMap (fun k => [⟨"user", toString k⟩, ⟨"assistant", toString k⟩])

/-- A chat state with eleven recorded exchanges (22 messages). -/
def chatState22 : ChatState := ⟨sampleTurns 11, "", []⟩

/-- A chat state with ten recorded exchanges (20 messages) and a stale
summary. -/
def chatState20 : ChatState := ⟨sampleTurns 10, "old summary", []⟩

/-- A completion capability that always answers with a fixed response. -/
def sampleOkCompletion : Completion := fun _ => .ok "ok-response"

/-- A completion capability that always answers with a second fixed
response. -/
def sampleOkCompletion2 : Completion := fun _ => .ok "second-response"

/-- A completion capability that always fails with a provider error. -/
def sampleErrCompletion : Completion := fun _ => .error "boom"

/-- Two sample retrieval results, the second lacking a filename. -/
def sampleDocsR : List RetrievalResult :=
  [⟨"content-a", some "a.pdf"⟩, ⟨"content-b", none⟩]

/-- A sample ingestion input built from the four-word text. -/
def sampleDoc : Document := ⟨"doc.txt", "docs/doc.txt", fourWordText⟩

/-- The two-word chunk text produced for `sampleDoc` with `chunk_size = 2`
and `overlap = 0`. -/
def chunk2 : String := w30 ++ " " ++ w30

/-- The collection obtained by ingesting `sampleDoc` into the empty
collection with `chunk_size = 2` and `overlap = 0`. -/
def sampleCol1 : Collection :=
  [("doc.txt_chunk_0", ⟨chunk2, "doc.txt", "docs/doc.txt", 0, 2⟩),
   ("doc.txt_chunk_1", ⟨chunk2, "doc.txt", "docs/doc.txt", 1, 2⟩)]

/-! ## Helper lemmas about the chunking loop -/

/-- Every word position below `n` has a window start at the largest multiple
of `step` not exceeding it. -/
theorem chunkStarts_mem {n step : Nat} (hstep : 0 < step) {p : Nat} (hp : p < n) :
    p / step * step ∈ chunkStarts n step := by
  unfold chunkStarts
  refine List.mem_map.mpr ⟨p / step, ?_, rfl⟩
  rw [List.mem_range]
  have h1 : p / step ≤ (n - 1) / step := Nat.div_le_div_right (by omega)
  have h2 : (n + step - 1) / step = (n - 1) / step + 1 := by
    have h3 : n + step - 1 = (n - 1) + step := by omega
    rw [h3, Nat.add_div_right _ hstep]
  omega

/-- With a positive step (`overlap < chunk_size`), `chunk_text` returns the
filtered window texts over the starts `0, step, 2*step, ...`. -/
theorem chunk_text_pos_step (text : String) (S O : Nat) (hO : O < S) :
    chunk_text text S O = Except.ok
      (((chunkStarts (normalizeWords text).length (S - O)).map
          (fun i => windowChunk (normalizeWords text) i S)).filter keepChunk) := by
  unfold chunk_text pyRange0
  have h0 : ¬ ((S : Int) - (O : Int) = 0) := by omega
  have h1 : ¬ ((S : Int) - (O : Int) < 0) := by omega
  have h2 : ((S : Int) - (O : Int)).toNat = S - O := by omega
  rw [if_neg h0, if_neg h1, h2]

/-- A word position is strictly below the end of the window that starts at
the largest multiple of `step` not exceeding it. -/
theorem lt_div_mul_add_step {step : Nat} (hstep : 0 < step) (p : Nat) :
    p < p / step * step + step := by
  rw [Nat.mul_comm]
  calc p = p % step + step * (p / step) := (Nat.mod_add_div p step).symm
    _ < step + step * (p / step) := Nat.add_lt_add_right (Nat.mod_lt p hstep) _
    _ = step * (p / step) + step := Nat.add_comm _ _

/-! ## C1: chunk coverage -/

/-- C1, counterexample to the claim as stated.  First failure: for the
one-word text "hi" with `chunk_size = 2`, `overlap = 0`, the single window
is discarded by the 50-character minimum-length filter, so the chunk list
is empty and word position 0 of the normalized text is covered by no chunk.
Second failure: for a ten-word text of thirty-character words with
`chunk_size = 8`, `overlap = 6`, all five windows pass the filter and their
word counts are `[8, 8, 6, 4, 2]`, so the chunk at index 2 is non-final yet
has 6 rather than exactly `S = 8` words. -/
theorem chunk_text_coverage_counterexample :
    (chunk_text "hi" 2 0 = Except.ok [] ∧ 0 < (normalizeWords "hi").length ∧
      ¬ coveredPos (normalizeWords "hi") 2 [] 0) ∧
    Except.map (fun cs => cs.map (fun c => (normalizeWords c).length))
        (chunk_text tenWordText 8 6) = Except.ok [8, 8, 6, 4, 2] := by
  refine ⟨⟨by rfl, by decide, ?_⟩, by rfl⟩
  rintro ⟨i, -, -, hmem⟩
  exact List.not_mem_nil _ hmem

/-- C1 (amended): for every input text and every `chunk_size` `S` and
`overlap` `O` with `0 ≤ O < S`, `chunk_text` succeeds and the returned list
is exactly the filter-passing window texts, i.e. the stripped windows over
the starts `0, S - O, 2*(S - O), ...` that are nonempty and longer than 50
characters, in order; every returned chunk is the text of a window starting
at a multiple of the step `S - O`, and every window that fits entirely in
the text contains exactly `S` words (trailing windows may be shorter).
Provided no window is discarded by the filter, every word position in
`[0, W)` of the normalized text is covered by at least one returned chunk
(no gap). -/
theorem chunk_text_window_coverage (text : String) (S O : Nat) (hO : O < S) :
    ∃ cs, chunk_text text S O = Except.ok cs ∧
      cs = ((chunkStarts (normalizeWords text).length (S - O)).map
              (fun i => windowChunk (normalizeWords text) i S)).filter keepChunk ∧
      (∀ c ∈ cs, ∃ i ∈ chunkStarts (normalizeWords text).length (S - O),
          c = windowChunk (normalizeWords text) i S) ∧
      (∀ i ∈ chunkStarts (normalizeWords text).length (S - O),
          i + S ≤ (normalizeWords text).length →
          (((normalizeWords text).drop i).take S).length = S) ∧
      ((∀ i ∈ chunkStarts (normalizeWords text).length (S - O),
          keepChunk (windowChunk (normalizeWords text) i S) = true) →
        ∀ p < (normalizeWords text).length,
          coveredPos (normalizeWords text) S cs p) := by
  have hstep : 0 < S - O := by omega
  refine ⟨_, chunk_text_pos_step text S O hO, rfl, ?_, ?_, ?_⟩
  · intro c hc
    obtain ⟨hc1, -⟩ := List.mem_filter.mp hc
    obtain ⟨i, hi, rfl⟩ := List.mem_map.mp hc1
    exact ⟨i, hi, rfl⟩
  · intro i _ hfit
    rw [List.length_take, List.length_drop]
    omega
  · intro hkeep p hp
    have hi := chunkStarts_mem hstep hp
    refine ⟨p / (S - O) * (S - O), Nat.div_mul_le_self p (S - O), ?_, ?_⟩
    · have h4 := lt_div_mul_add_step hstep p
      omega
    · exact List.mem_filter.mpr ⟨List.mem_map_of_mem _ hi, hkeep _ hi⟩

/-- C1 witness: at the four-word text of thirty-character words with
`chunk_size = 2`, `overlap = 0`, chunking succeeds with exactly the
filter-passing windows, and since every window passes the filter there,
the coverage implication applies as well. -/
theorem chunk_text_window_coverage_witness :
    ∃ cs, chunk_text fourWordText 2 0 = Except.ok cs ∧
      cs = ((chunkStarts (normalizeWords fourWordText).length (2 - 0)).map
              (fun i => windowChunk (normalizeWords fourWordText) i 2)).filter keepChunk ∧
      (∀ c ∈ cs, ∃ i ∈ chunkStarts (normalizeWords fourWordText).length (2 - 0),
          c = windowChunk (normalizeWords fourWordText) i 2) ∧
      (∀ i ∈ chunkStarts (normalizeWords fourWordText).length (2 - 0),
          i + 2 ≤ (normalizeWords fourWordText).length →
          (((normalizeWords fourWordText).drop i).take 2).length = 2) ∧
      ((∀ i ∈ chunkStarts (normalizeWords fourWordText).length (2 - 0),
          keepChunk (windowChunk (normalizeWords fourWordText) i 2) = true) →
        ∀ p < (normalizeWords fourWordText).length,
          coveredPos (normalizeWords fourWordText) 2 cs p) :=
  chunk_text_window_coverage fourWordText 2 0 (by decide)

/-! ## C3: non-positive chunking step -/

/-- C3, counterexample to the claim as stated: with `chunk_size = 2` and
`overlap = 3` the step is negative, the Python `range` is silently empty,
and `chunk_text` returns a (possibly empty) chunk list with no error. -/
theorem chunk_text_nonpositive_step_counterexample :
    chunk_text "word" 2 3 = Except.ok [] ∧
      ∀ e, chunk_text "word" 2 3 ≠ Except.error e := by
  have h0 : chunk_text "word" 2 3 = Except.ok [] := by rfl
  refine ⟨h0, fun e he => ?_⟩
  rw [h0] at he
  exact Except.noConfusion he

/-- C3 (amended): for every input text and every configuration with
`overlap ≥ chunk_size`, chunking terminates and never loops forever, but it
fails fast with an error only in the boundary case `overlap = chunk_size`
(the zero step raises `ValueError` inside `range`); for
`overlap > chunk_size` the step is negative, the range is empty, and
`chunk_text` silently returns the empty chunk list. -/
theorem chunk_text_nonpositive_step (text : String) (S O : Nat) (h : S ≤ O) :
    (O = S → chunk_text text S O =
        Except.error "ValueError: range() arg 3 must not be zero") ∧
    (S < O → chunk_text text S O = Except.ok []) := by
  constructor
  · intro hEq
    unfold chunk_text pyRange0
    rw [if_pos (by omega : (S : Int) - (O : Int) = 0)]
  · intro hLt
    unfold chunk_text pyRange0
    rw [if_neg (by omega : ¬ ((S : Int) - (O : Int) = 0)),
      if_pos (by omega : (S : Int) - (O : Int) < 0)]
    rfl

/-- C3 witness: at `chunk_size = overlap = 2` the call fails fast with the
zero-step range error. -/
theorem chunk_text_nonpositive_step_witness :
    chunk_text "pqrs" 2 2 = Except.error "ValueError: range() arg 3 must not be zero" :=
  (chunk_text_nonpositive_step "pqrs" 2 2 (by decide)).1 rfl

/-! ## Helper lemmas about the id-keyed collection -/

/-- Upserting does not change the id set when the id is already present, and
appends the id otherwise. -/
theorem keysOf_upsertOne (col : Collection) (id : String) (t : ChunkEntry) :
    keysOf (upsertOne col id t) =
      if id ∈ keysOf col then keysOf col else keysOf col ++ [id] := by
  unfold upsertOne
  split
  · unfold keysOf
    rw [List.map_map]
    refine List.map_congr_left (fun p _ => ?_)
    by_cases hp : p.1 = id
    · simp [hp]
    · simp [hp]
  · unfold keysOf
    rw [List.map_append]
    rfl

/-- The size of the collection grows only when the id is fresh. -/
theorem length_upsertOne (col : Collection) (id : String) (t : ChunkEntry) :
    (upsertOne col id t).length =
      if id ∈ keysOf col then col.length else col.length + 1 := by
  unfold upsertOne
  split
  · rw [List.length_map]
  · rw [List.length_append]
    rfl

/-- Unfolding one step of a batch insertion. -/
theorem upsertBatch_cons (col : Collection) (e : String × ChunkEntry)
    (es : List (String × ChunkEntry)) :
    upsertBatch col (e :: es) = upsertBatch (upsertOne col e.1 e.2) es := rfl

/-- Ids already present stay present after an upsert. -/
theorem mem_keysOf_upsertOne {col : Collection} {k : String} (hk : k ∈ keysOf col)
    (id : String) (t : ChunkEntry) : k ∈ keysOf (upsertOne col id t) := by
  rw [keysOf_upsertOne]
  split
  · exact hk
  · exact List.mem_append_left _ hk

/-- The upserted id is present afterwards. -/
theorem mem_keysOf_upsertOne_self (col : Collection) (id : String) (t : ChunkEntry) :
    id ∈ keysOf (upsertOne col id t) := by
  rw [keysOf_upsertOne]
  split
  · exact ‹_›
  · exact List.mem_append_right _ (List.mem_singleton.mpr rfl)

/-- Ids already present stay present after a whole batch. -/
theorem mem_keysOf_upsertBatch {col : Collection} {k : String} (hk : k ∈ keysOf col)
    (entries : List (String × ChunkEntry)) : k ∈ keysOf (upsertBatch col entries) := by
  induction entries generalizing col with
  | nil => exact hk
  | cons e es ih => exact ih (mem_keysOf_upsertOne hk e.1 e.2)

/-- After adding a batch, the id of every entry of the batch is present. -/
theorem batch_ids_mem (entries : List (String × ChunkEntry)) (col : Collection) :
    ∀ e ∈ entries, e.1 ∈ keysOf (upsertBatch col entries) := by
  induction entries generalizing col with
  | nil => intro e he; cases he
  | cons e es ih =>
    intro e' he'
    rcases List.mem_cons.mp he' with rfl | hmem
    · exact mem_keysOf_upsertBatch (mem_keysOf_upsertOne_self col e'.1 e'.2) es
    · exact ih (upsertOne col e.1 e.2) e' hmem

/-- Adding a batch whose ids are all already present neither grows the
collection nor changes its id set. -/
theorem upsertBatch_of_ids_present (entries : List (String × ChunkEntry))
    (col : Collection) (h : ∀ e ∈ entries, e.1 ∈ keysOf col) :
    (upsertBatch col entries).length = col.length ∧
      keysOf (upsertBatch col entries) = keysOf col := by
  induction entries generalizing col with
  | nil => exact ⟨rfl, rfl⟩
  | cons e es ih =>
    have hmem : e.1 ∈ keysOf col := h e (List.mem_cons_self e es)
    have hlen : (upsertOne col e.1 e.2).length = col.length := by
      rw [length_upsertOne, if_pos hmem]
    have hkeys : keysOf (upsertOne col e.1 e.2) = keysOf col := by
      rw [keysOf_upsertOne, if_pos hmem]
    have h' : ∀ e' ∈ es, e'.1 ∈ keysOf (upsertOne col e.1 e.2) := by
      intro e' he'
      rw [hkeys]
      exact h e' (List.mem_cons_of_mem e he')
    obtain ⟨ih1, ih2⟩ := ih (upsertOne col e.1 e.2) h'
    exact ⟨by rw [upsertBatch_cons, ih1, hlen], by rw [upsertBatch_cons, ih2, hkeys]⟩

/-- Unfolding `add_documents` to a case split on the accumulated batch. -/
theorem add_documents_eq (col : Collection) (documents : List Document) (S O : Nat) :
    add_documents col documents S O =
      match allEntries documents S O with
      | .error e => .error e
      | .ok entries => .ok (upsertBatch col entries) := by
  unfold add_documents
  cases allEntries documents S O <;> rfl

/-! ## C2: idempotent upsert with deterministic chunk ids -/

/-- C2: chunk ids are the deterministic strings
`filename + "_chunk_" + index`, and ingesting the same documents twice via
`add_documents` with identical chunking parameters leaves the index with
the same number of entries as ingesting them once: the colliding ids
overwrite prior entries rather than duplicating or erroring. -/
theorem add_documents_idempotent (col : Collection) (documents : List Document)
    (S O : Nat) (col1 : Collection)
    (h : add_documents col documents S O = Except.ok col1) :
    (∃ col2, add_documents col1 documents S O = Except.ok col2 ∧
        col2.length = col1.length) ∧
    (∀ doc ∈ documents, ∀ chunks, chunk_text doc.content S O = Except.ok chunks →
        (docEntries doc chunks).map Prod.fst =
          (List.range chunks.length).map
            (fun i => doc.filename ++ "_chunk_" ++ toString i)) := by
  constructor
  · rw [add_documents_eq] at h
    cases hE : allEntries documents S O with
    | error e => rw [hE] at h; exact Except.noConfusion h
    | ok entries =>
      rw [hE] at h
      have hcol1 : upsertBatch col entries = col1 := Except.ok.inj h
      refine ⟨upsertBatch col1 entries, ?_, ?_⟩
      · rw [add_documents_eq, hE]
      · rw [← hcol1]
        exact (upsertBatch_of_ids_present entries (upsertBatch col entries)
          (batch_ids_mem entries col)).1
  · intro doc _ chunks _
    have h1 : (docEntries doc chunks).map Prod.fst
        = chunks.enum.map (fun p => doc.filename ++ "_chunk_" ++ toString p.1) := by
      unfold docEntries
      rw [List.map_map]
      rfl
    have h2 : chunks.enum.map (fun p => doc.filename ++ "_chunk_" ++ toString p.1)
        = (chunks.enum.map Prod.fst).map
            (fun i => doc.filename ++ "_chunk_" ++ toString i) := by
      rw [List.map_map]
      rfl
    rw [h1, h2, List.enum_map_fst]

/-- C2 witness: ingesting `sampleDoc` into the empty collection yields the
two entries of `sampleCol1`, and a second identical ingestion keeps the
entry count at two. -/
theorem add_documents_idempotent_witness :
    (∃ col2, add_documents sampleCol1 [sampleDoc] 2 0 = Except.ok col2 ∧
        col2.length = sampleCol1.length) ∧
    (∀ doc ∈ [sampleDoc], ∀ chunks, chunk_text doc.content 2 0 = Except.ok chunks →
        (docEntries doc chunks).map Prod.fst =
          (List.range chunks.length).map
            (fun i => doc.filename ++ "_chunk_" ++ toString i)) :=
  add_documents_idempotent [] [sampleDoc] 2 0 sampleCol1 (by rfl)

/-! ## Helper lemmas about the conversation layer -/

/-- The periodic summary update never touches the turn log. -/
theorem update_conversation_summary_history (c : Completion) (st : ChatState) :
    (update_conversation_summary c st).conversation_history = st.conversation_history := by
  unfold update_conversation_summary
  split
  · split <;> rfl
  · rfl

/-- When the trigger fires and the provider succeeds, the summary is
overwritten wholesale with the result. -/
theorem update_conversation_summary_ok (c : Completion) (st : ChatState) (r : String)
    (ht : st.conversation_history.length % 20 = 0)
    (hp : 0 < st.conversation_history.length)
    (hc : c [⟨"user",
        summary_prompt (conversation_text (pyLastSlice st.conversation_history 20))⟩]
      = Except.ok r) :
    update_conversation_summary c st = { st with conversation_summary := r } := by
  unfold update_conversation_summary
  rw [if_pos ⟨ht, hp⟩, hc]

/-- Appending a user/assistant pair preserves the alternation invariant. -/
theorem Alternating.append_pair {l : List Msg} (h : Alternating l) (q a : String) :
    Alternating (l ++ [⟨"user", q⟩, ⟨"assistant", a⟩]) := by
  induction h with
  | nil => exact Alternating.cons q a [] Alternating.nil
  | cons q' a' t _ ih => exact Alternating.cons q' a' _ ih

/-- An alternating turn log has even length. -/
theorem Alternating.length_even {l : List Msg} (h : Alternating l) :
    l.length % 2 = 0 := by
  induction h with
  | nil => rfl
  | cons q a t _ ih =>
    simp only [List.length_cons]
    omega

/-! ## C4: memory window bound -/

/-- C4: for every conversation history of more than 20 recorded turns, the
prior-context turns included in the next completion request are exactly the
most recent 20 turns in their original order: the window has length 20, it
is a suffix of the turn log (the remaining turns being the older prefix),
and the assembled request contains it verbatim between the system part and
the final user message. -/
theorem memory_window_bound (st : ChatState)
    (hlen : 20 < st.conversation_history.length) :
    (window st).length = 20 ∧
    (∃ pre, st.conversation_history = pre ++ window st ∧
        pre.length = st.conversation_history.length - 20) ∧
    (∀ q docs, ∃ head, assemble_messages st q docs =
        head ++ window st
          ++ [⟨"user", user_message_content (prepare_context docs) q⟩]) := by
  refine ⟨?_, ?_, ?_⟩
  · unfold window pyLastSlice
    rw [List.length_drop]
    omega
  · refine ⟨st.conversation_history.take (st.conversation_history.length - 20), ?_, ?_⟩
    · exact (List.take_append_drop _ _).symm
    · rw [List.length_take]
      omega
  · intro q docs
    refine ⟨[⟨"system", system_message⟩]
      ++ (if st.conversation_summary ≠ "" then
            [⟨"system", "CONVERSATION SUMMARY: " ++ st.conversation_summary⟩]
          else []), ?_⟩
    unfold assemble_messages
    rw [List.append_assoc]

/-- C4 witness: at eleven recorded exchanges (22 messages) the window is
the most recent 20 messages. -/
theorem memory_window_bound_witness :
    (window chatState22).length = 20 ∧
    (∃ pre, chatState22.conversation_history = pre ++ window chatState22 ∧
        pre.length = chatState22.conversation_history.length - 20) ∧
    (∀ q docs, ∃ head, assemble_messages chatState22 q docs =
        head ++ window chatState22
          ++ [⟨"user", user_message_content (prepare_context docs) q⟩]) :=
  memory_window_bound chatState22 (by decide)

/-! ## C5: summarization trigger and overwrite -/

/-- C5: whenever the turn log length is a positive multiple of 20, the
summarizer is invoked synchronously with the dedicated prompt over exactly
the most recent 20 turns and the summary is replaced wholesale by the
result; after two consecutive triggers the summary equals only the latest
result, never a concatenation of both. -/
theorem summarization_trigger_overwrite (c1 c2 : Completion) (st : ChatState)
    (h2 : List Msg) (r1 r2 : String)
    (ht1 : st.conversation_history.length % 20 = 0)
    (hp1 : 0 < st.conversation_history.length)
    (hc1 : c1 [⟨"user",
        summary_prompt (conversation_text (pyLastSlice st.conversation_history 20))⟩]
      = Except.ok r1)
    (ht2 : h2.length % 20 = 0) (hp2 : 0 < h2.length)
    (hc2 : c2 [⟨"user", summary_prompt (conversation_text (pyLastSlice h2 20))⟩]
      = Except.ok r2) :
    (update_conversation_summary c1 st).conversation_summary = r1 ∧
    (update_conversation_summary c2
        { update_conversation_summary c1 st with conversation_history := h2
          }).conversation_summary = r2 := by
  have hfirst := update_conversation_summary_ok c1 st r1 ht1 hp1 hc1
  constructor
  · rw [hfirst]
  · rw [update_conversation_summary_ok c2
      { update_conversation_summary c1 st with conversation_history := h2 } r2 ht2 hp2 hc2]

/-- C5 witness: at ten exchanges the stale summary is overwritten by the
first trigger result, and a second trigger at twenty exchanges replaces it
with only the second result. -/
theorem summarization_trigger_overwrite_witness :
    (update_conversation_summary sampleOkCompletion chatState20).conversation_summary
      = "ok-response" ∧
    (update_conversation_summary sampleOkCompletion2
        { update_conversation_summary sampleOkCompletion chatState20 with
          conversation_history := sampleTurns 20 }).conversation_summary
      = "second-response" :=
  summarization_trigger_overwrite sampleOkCompletion sampleOkCompletion2 chatState20
    (sampleTurns 20) "ok-response" "second-response"
    (by decide) (by decide) rfl (by decide) (by decide) rfl

/-! ## C6: summarization failure is non-fatal and state-preserving -/

/-- C6: when the summarization completion call fails, the previous summary
is retained unchanged, the turn log and the whole state are unchanged, and
no exception propagates: `update_conversation_summary` returns the state it
was given (the error is only printed as a warning). -/
theorem summarization_failure_preserves_state (c : Completion) (st : ChatState)
    (e : String)
    (hc : c [⟨"user",
        summary_prompt (conversation_text (pyLastSlice st.conversation_history 20))⟩]
      = Except.error e) :
    update_conversation_summary c st = st := by
  unfold update_conversation_summary
  split
  · rw [hc]
  · rfl

/-- C6 witness: at ten exchanges a failing provider leaves the state, and
in particular the stale summary, untouched. -/
theorem summarization_failure_preserves_state_witness :
    update_conversation_summary sampleErrCompletion chatState20 = chatState20 :=
  summarization_failure_preserves_state sampleErrCompletion chatState20 "boom" rfl

/-! ## C7: answer-path error handling with atomicity -/

/-- C7: if the answering completion call fails, `generate_response` returns
the formatted error string instead of raising and leaves the conversation
history and summary exactly as they were; the exchange is appended to the
history only when the call succeeds. -/
theorem answer_failure_atomicity (c : Completion) (st : ChatState) (q : String)
    (docs : List RetrievalResult) :
    (∀ e, c (assemble_messages st q docs) = Except.error e →
        generate_response c st q docs = ("Error generating response: " ++ e, st)) ∧
    (∀ a, c (assemble_messages st q docs) = Except.ok a →
        (generate_response c st q docs).1 = a ∧
        (generate_response c st q docs).2.conversation_history =
          st.conversation_history ++ [⟨"user", q⟩, ⟨"assistant", a⟩]) := by
  constructor
  · intro e he
    unfold generate_response
    rw [he]
  · intro a ha
    unfold generate_response
    rw [ha]
    exact ⟨rfl, update_conversation_summary_history c _⟩

/-- C7 witness: a failing provider yields the formatted error string with
the state untouched, and a succeeding provider records the exchange. -/
theorem answer_failure_atomicity_witness :
    generate_response sampleErrCompletion chatState20 "q" [] =
      ("Error generating response: boom", chatState20) ∧
    ((generate_response sampleOkCompletion chatState20 "q" []).1 = "ok-response" ∧
      (generate_response sampleOkCompletion chatState20 "q" []).2.conversation_history =
        chatState20.conversation_history
          ++ [⟨"user", "q"⟩, ⟨"assistant", "ok-response"⟩]) :=
  ⟨(answer_failure_atomicity sampleErrCompletion chatState20 "q" []).1 "boom" rfl,
   (answer_failure_atomicity sampleOkCompletion chatState20 "q" []).2 "ok-response" rfl⟩

/-! ## C8: message assembly order -/

/-- C8: the message list sent to the completion capability is, in order:
the constant system-instruction message; then a summary message exactly
when the summary is nonempty; then the windowed history turns in original
order; then a single final user message made of the retrieved context
followed by the query text, where the `k`-th retrieval result (1-based) is
labeled `Source k (filename)`. -/
theorem message_assembly_order (st : ChatState) (q : String)
    (docs : List RetrievalResult) :
    (∃ mid, assemble_messages st q docs =
        ⟨"system", system_message⟩ :: (mid ++ window st
          ++ [⟨"user", user_message_content (prepare_context docs) q⟩]) ∧
      (st.conversation_summary = "" → mid = []) ∧
      (st.conversation_summary ≠ "" →
        mid = [⟨"system", "CONVERSATION SUMMARY: " ++ st.conversation_summary⟩])) ∧
    (contextParts docs).length = docs.length ∧
    (∀ k (hk : k < docs.length) (hk2 : k < (contextParts docs).length),
      (contextParts docs).get ⟨k, hk2⟩ =
        "Source " ++ toString (k + 1) ++ " ("
          ++ (docs.get ⟨k, hk⟩).filename.getD "Unknown" ++ "):\n"
          ++ (docs.get ⟨k, hk⟩).content ++ "\n") ∧
    prepare_context docs = joinWith "\n" (contextParts docs) := by
  refine ⟨?_, ?_, ?_, rfl⟩
  · refine ⟨if st.conversation_summary ≠ "" then
        [⟨"system", "CONVERSATION SUMMARY: " ++ st.conversation_summary⟩]
      else [], ?_, ?_, ?_⟩
    · rfl
    · intro hs
      rw [if_neg (by simp [hs])]
    · intro hs
      rw [if_pos hs]
  · unfold contextParts
    rw [List.length_map, List.enum_length]
  · intro k hk hk2
    unfold contextParts
    rw [List.get_eq_getElem, List.getElem_map, List.getElem_enum]
    simp [List.get_eq_getElem]

/-- C8 witness: the assembled request at a state with a nonempty summary
and the two sample retrieval results. -/
theorem message_assembly_order_witness :
    (∃ mid, assemble_messages chatState20 "q" sampleDocsR =
        ⟨"system", system_message⟩ :: (mid ++ window chatState20
          ++ [⟨"user", user_message_content (prepare_context sampleDocsR) "q"⟩]) ∧
      (chatState20.conversation_summary = "" → mid = []) ∧
      (chatState20.conversation_summary ≠ "" →
        mid = [⟨"system", "CONVERSATION SUMMARY: " ++ chatState20.conversation_summary⟩])) ∧
    (contextParts sampleDocsR).length = sampleDocsR.length ∧
    (∀ k (hk : k < sampleDocsR.length) (hk2 : k < (contextParts sampleDocsR).length),
      (contextParts sampleDocsR).get ⟨k, hk2⟩ =
        "Source " ++ toString (k + 1) ++ " ("
          ++ (sampleDocsR.get ⟨k, hk⟩).filename.getD "Unknown" ++ "):\n"
          ++ (sampleDocsR.get ⟨k, hk⟩).content ++ "\n") ∧
    prepare_context sampleDocsR = joinWith "\n" (contextParts sampleDocsR) :=
  message_assembly_order chatState20 "q" sampleDocsR

/-! ## C9: reset atomicity -/

/-- C9: after `clear_history` returns, the turn log is empty and the
summary is the empty string, and every subsequent window or context
assembly includes no pre-reset turns and no pre-reset summary: the
assembled request from the cleared state is just the system instructions
and the fresh user message. -/
theorem reset_atomicity (st : ChatState) (q : String) (docs : List RetrievalResult) :
    (clear_history st).conversation_history = [] ∧
    (clear_history st).conversation_summary = "" ∧
    window (clear_history st) = [] ∧
    assemble_messages (clear_history st) q docs =
      [⟨"system", system_message⟩,
       ⟨"user", user_message_content (prepare_context docs) q⟩] := by
  refine ⟨rfl, rfl, rfl, ?_⟩
  unfold assemble_messages clear_history window pyLastSlice
  simp

/-! ## C10: the turn log alternates user and assistant turns -/

/-- C10: the conversation history always has even length and strictly
alternates a user turn followed by an assistant turn, and every operation
preserves this: `generate_response` appends exactly one user turn then one
assistant turn on success and appends nothing on failure, and
`clear_history` empties the list. -/
theorem history_alternation_invariant (c : Completion) (st : ChatState) (q : String)
    (docs : List RetrievalResult) (halt : Alternating st.conversation_history) :
    Alternating ((clear_history st).conversation_history) ∧
    Alternating ((generate_response c st q docs).2.conversation_history) ∧
    ((generate_response c st q docs).2.conversation_history).length % 2 = 0 ∧
    (∀ e, c (assemble_messages st q docs) = Except.error e →
        (generate_response c st q docs).2.conversation_history =
          st.conversation_history) ∧
    (∀ a, c (assemble_messages st q docs) = Except.ok a →
        (generate_response c st q docs).2.conversation_history =
          st.conversation_history ++ [⟨"user", q⟩, ⟨"assistant", a⟩]) := by
  have hpost : Alternating ((generate_response c st q docs).2.conversation_history) := by
    unfold generate_response
    cases hc : c (assemble_messages st q docs) with
    | ok a =>
      rw [update_conversation_summary_history]
      exact halt.append_pair q a
    | error e => exact halt
  refine ⟨Alternating.nil, hpost, hpost.length_even, ?_, ?_⟩
  · intro e he
    unfold generate_response
    rw [he]
  · intro a ha
    unfold generate_response
    rw [ha]
    exact update_conversation_summary_history c _

/-- C10 witness: from the empty log, a successful exchange yields the
two-message alternating log, and a reset yields the empty one. -/
theorem history_alternation_invariant_witness :
    Alternating ((clear_history emptyChatState).conversation_history) ∧
    Alternating
      ((generate_response sampleOkCompletion emptyChatState "q" []).2.conversation_history) ∧
    (((generate_response sampleOkCompletion emptyChatState "q" []).2.conversation_history).length) % 2
      = 0 ∧
    (∀ e, sampleOkCompletion (assemble_messages emptyChatState "q" []) = Except.error e →
        (generate_response sampleOkCompletion emptyChatState "q" []).2.conversation_history =
          emptyChatState.conversation_history) ∧
    (∀ a, sampleOkCompletion (assemble_messages emptyChatState "q" []) = Except.ok a →
        (generate_response sampleOkCompletion emptyChatState "q" []).2.conversation_history =
          emptyChatState.conversation_history ++ [⟨"user", "q"⟩, ⟨"assistant", a⟩]) :=
  history_alternation_invariant sampleOkCompletion emptyChatState "q" [] Alternating.nil

end AadharAgent
